import Mathlib

/-!
Verification development for the Vertigo microcontroller gateway
(src/Engine/swift_middleware/swift_vertigo/vertigo_docker_gateway.py and
src/Engine/swift/vertigo_middleware/handlers/base.py).

The Python source is shallowly embedded: request headers and metadata
dictionaries become association lists over String, file descriptors become
Nat identifiers allocated by a counter, and the externally observable
actions of one invocation (opening and closing descriptors, sending the
SBus datagram, blocking on select, issuing HTTP requests to the object
store, writing cache files, constructing the invocation protocol object)
are recorded in an explicit event trace.  Fallible Python code (raised
exceptions) is embedded as Except values.
-/

set_option autoImplicit false

namespace Vertigo

/-- Request or response headers: an association list from header name to
value, embedding a Python dict (unique keys, first match wins). -/
abbrev Headers : Type := List (String × String)

/-- Lookup in an association list, embedding Python dict indexing. -/
def alookup {β : Type} (k : String) : List (String × β) → Option β
  | [] => none
  | p :: rest => if p.1 = k then some p.2 else alookup k rest

/-- Membership test for a key, embedding the Python test for key presence
in a dict. -/
def containsKey {β : Type} (h : List (String × β)) (k : String) : Bool :=
  (alookup k h).isSome

/-- Removal of a key, embedding a Python del statement on a dict. -/
def eraseKey {β : Type} (h : List (String × β)) (k : String) : List (String × β) :=
  h.filter (fun p => !(p.1 == k))

/-- Assignment of a key, embedding a Python dict item assignment: an existing
entry is overwritten in place, a new entry is appended. -/
def setHeader (h : Headers) (k v : String) : Headers :=
  if containsKey h k then h.map (fun p => if p.1 = k then (k, v) else p)
  else h ++ [(k, v)]

/-- Python str.lower, over the character list.  All string helpers of this
development are defined by structural recursion over character lists so that
concrete runs reduce inside the kernel. -/
def lowerStr (s : String) : String := String.mk (s.data.map Char.toLower)

/-- Python slicing s[n:]. -/
def strDrop (s : String) (n : Nat) : String := String.mk (s.data.drop n)

/-- Python slicing s[:n]. -/
def strTake (s : String) (n : Nat) : String := String.mk (s.data.take n)

/-- Python str.startswith. -/
def strStartsWith (s p : String) : Bool := List.isPrefixOf p.data s.data

/-- Python str.endswith. -/
def strEndsWith (s p : String) : Bool := List.isSuffixOf p.data s.data

/-- Splitting of a character list at every occurrence of a separator. -/
def splitChars (c : Char) : List Char → List (List Char)
  | [] => [[]]
  | x :: xs =>
    if x = c then [] :: splitChars c xs
    else
      match splitChars c xs with
      | [] => [[x]]
      | p :: ps => (x :: p) :: ps

/-- Python str.split with a one-character separator (the source only splits
on the one-character separators comma, hyphen, slash and dot). -/
def splitOnChar (c : Char) (s : String) : List String :=
  (splitChars c s.data).map String.mk

/-- Joining of parts with a one-character separator. -/
def joinSep (c : Char) : List String → String
  | [] => ""
  | [s] => s
  | s :: rest => s ++ String.singleton c ++ joinSep c rest

/-- Python rsplit with a maxsplit bound: split from the right at most
maxsplit times. -/
def rsplit (s : String) (sep : Char) (maxsplit : Nat) : List String :=
  let parts := splitOnChar sep s
  if parts.length ≤ maxsplit + 1 then parts
  else joinSep sep (parts.take (parts.length - maxsplit)) ::
    parts.drop (parts.length - maxsplit)

/-- Element 0 of a Python rsplit, the part before the last separator
(the whole string when the separator is absent). -/
def rsplitHead (s : String) (sep : Char) : String :=
  match rsplit s sep 1 with
  | [] => s
  | h :: _ => h

/-- Python os.path.join for two relative components. -/
def joinPath (a b : String) : String :=
  if strEndsWith a "/" then a ++ b else a ++ "/" ++ b

/-- Errors raised by the embedded Python code. -/
inductive VErr where
  /-- Python KeyError or missing attribute during dict indexing. -/
  | keyError (k : String)
  /-- NameError raised when a micro-controller is not found in Swift. -/
  | mcNotFound (name : String)
  /-- NameError raised when a dependency is not found in Swift. -/
  | depNotFound (name : String)
  /-- Exception raised when SBus.send returns a negative code. -/
  | sendFailure
  /-- eventlet Timeout raised when select expires with no data ready. -/
  | timeout
  /-- swob HTTPUnauthorized. -/
  | httpUnauthorized
  /-- Python IndexError on list indexing. -/
  | indexError
  deriving DecidableEq, Repr

/-- Boolean test that an Except value is a success. -/
def isOkE {ε α : Type} : Except ε α → Bool
  | .ok _ => true
  | .error _ => false

/-! ## base.py: VertigoBaseHandler trigger header parsing -/

/-- The recognized trigger-assignment headers, from
VertigoBaseHandler.available_assignation_headers. -/
def availableAssignationHeaders : List String :=
  ["X-Vertigo-Onget", "X-Vertigo-Ondelete", "X-Vertigo-Onput", "X-Vertigo-Ontimer"]

/-- The recognized trigger-deletion headers, from
VertigoBaseHandler.available_deletion_headers. -/
def availableDeletionHeaders : List String :=
  ["X-Vertigo-Onget-Delete", "X-Vertigo-Ondelete-Delete", "X-Vertigo-Onput-Delete",
   "X-Vertigo-Ontimer-Delete", "X-Vertigo-Delete"]

/-- VertigoBaseHandler.get_mc_assignation_data.  The function reads only the
request headers: it takes no store, cache or sandbox argument, so a rejection
here happens before any such interaction.  More than one recognized
assignment header raises HTTPUnauthorized; an empty selection raises
IndexError at header[0]. -/
def get_mc_assignation_data (reqHeaders : Headers) : Except VErr (String × String) :=
  let header := availableAssignationHeaders.filter (fun i => containsKey reqHeaders i)
  if header.length > 1 then .error .httpUnauthorized
  else
    match header with
    | [] => .error .indexError
    | h :: _ =>
      match alookup h reqHeaders with
      | none => .error (.keyError h)
      | some mc =>
        match (rsplit h '-' 1).drop 1 with
        | [] => .error .indexError
        | t :: _ => .ok (lowerStr t, mc)

/-- VertigoBaseHandler.get_mc_deletion_data, the deletion-side twin of
get_mc_assignation_data, reading only the request headers. -/
def get_mc_deletion_data (reqHeaders : Headers) : Except VErr (String × String) :=
  let header := availableDeletionHeaders.filter (fun i => containsKey reqHeaders i)
  if header.length > 1 then .error .httpUnauthorized
  else
    match header with
    | [] => .error .indexError
    | h :: _ =>
      match alookup h reqHeaders with
      | none => .error (.keyError h)
      | some mc =>
        match (rsplit h '-' 2).drop 1 with
        | [] => .error .indexError
        | t :: _ => .ok (lowerStr t, mc)

/-! ## Python cross-type equality, for get_microcontrollers -/

/-- A Python value that is either a str or a list of str (the two types
compared by the guard in get_microcontrollers). -/
inductive PyVal where
  | pstr (s : String)
  | plist (l : List String)
  deriving DecidableEq, Repr

/-- Python equality between such values: values of different runtime types
are never equal. -/
def pyEq : PyVal → PyVal → Bool
  | .pstr a, .pstr b => a == b
  | .plist a, .plist b => a == b
  | _, _ => false

/-! ## Object trigger metadata and get_microcontrollers -/

/-- The object trigger metadata record: the four trigger keys, as written by
DEFAULT_MD_STRING and read back by vertigo_common.read_metadata. -/
structure TriggerMd where
  onget : String
  onput : String
  ondelete : String
  ontimer : String
  deriving DecidableEq, Repr

/-- Python indexing controller_md["on" + req.lower()] on the trigger record:
defined for the four trigger keys, KeyError otherwise. -/
def triggerLookup (md : TriggerMd) (key : String) : Option String :=
  if key = "onget" then some md.onget
  else if key = "onput" then some md.onput
  else if key = "ondelete" then some md.ondelete
  else if key = "ontimer" then some md.ontimer
  else none

/-- VertigoGatewayDocker.get_microcontrollers.  Inputs: the request method
(REQUEST_METHOD of the original response environ), the trigger metadata read
from the object (none when cc.read_metadata found nothing), and the prior
value of self.mc_list.  Output: the returned Bool together with the value of
self.mc_list after the call.  The source guard compares the list
self.mc_list with the str literal "None" (a Python cross-type comparison,
embedded by pyEq), so its branch is never taken. -/
def get_microcontrollers (method : String) (controllerMd : Option TriggerMd)
    (prior : Option (List String)) : Except VErr (Bool × Option (List String)) :=
  match controllerMd with
  | some md =>
    match triggerLookup md ("on" ++ lowerStr method) with
    | none => .error (.keyError ("on" ++ lowerStr method))
    | some v =>
      let mcList := splitOnChar ',' v
      if pyEq (.plist mcList) (.pstr "None") then .ok (false, some mcList)
      else .ok (true, some mcList)
  | none => .ok (false, prior)

/-! ## Invocation protocol engine: data model -/

/-- SBus descriptor type tags, from the module constants. -/
def SBUS_FD_INPUT_OBJECT : Nat := 0

/-- Output object descriptor tag. -/
def SBUS_FD_OUTPUT_OBJECT : Nat := 1

/-- Output object metadata descriptor tag. -/
def SBUS_FD_OUTPUT_OBJECT_METADATA : Nat := 2

/-- Logger descriptor tag. -/
def SBUS_FD_LOGGER : Nat := 4

/-- The metadata dict attached to one descriptor of the datagram.  Optional
fields embed keys that the source sets only on some descriptor kinds.  The
json_md entry of the input descriptor, a json.dumps of the dict holding
req_md and file_md, is embedded structurally by the pair it serializes. -/
structure Fdmd where
  type : Nat
  handler : Option String
  main : Option String
  dependencies : Option String
  json_md : Option (Headers × Headers)
  deriving DecidableEq, Repr

/-- The per-handler metadata captured from the store HEAD response:
the X-Object-Meta-Handler-Main and X-Object-Meta-Handler-Library-Dependency
headers used by the gateway. -/
structure McMeta where
  main : String
  deps : String
  deriving DecidableEq, Repr

/-- One MicroController object after open(): its identity, the two computed
file paths, and the file descriptors of its opened metadata file (append and
read mode) and log file (append mode). -/
structure OpenedMC where
  name : String
  mainClass : String
  dependencies : String
  mdPath : String
  logPath : String
  mdFd : Nat
  logFd : Nat
  deriving DecidableEq, Repr

/-- Observable events of one invocation. -/
inductive Event where
  /-- A file descriptor was created (os.pipe or file open). -/
  | opened (fd : Nat)
  /-- A file descriptor was closed (os.close or file close). -/
  | closed (fd : Nat)
  /-- SBus.send was invoked with the datagram carrying these descriptors
  and their metadata. -/
  | sent (fds : List Nat) (md : List Fdmd)
  /-- select.select was invoked on the response pipe read end. -/
  | awaited
  /-- A best-effort cancellation was issued to the sandbox. -/
  | cancelIssued
  /-- The internal client daemon check or spawn ran. -/
  | icStarted
  /-- docker run was invoked for the named container, returning this exit
  code. -/
  | containerRun (name : String) (exit : Int)
  /-- A HEAD request was issued to the object store. -/
  | headRequest (container obj : String)
  /-- A GET request was issued to the object store. -/
  | getRequest (container obj : String)
  /-- A mirrored copy of a store object was written at this local path. -/
  | cacheWrite (path : String)
  /-- The MicroControllerInvocationProtocol object was constructed, receiving
  a copy of these request headers. -/
  | protoConstructed (reqMd : Headers)
  deriving DecidableEq, Repr

/-- The behavior of the world outside the coordinator during one invocation:
the code returned by SBus.send, the time in seconds at which response data
becomes ready on the pipe (none when it never does), and the payload read
from the pipe.  json.loads is embedded as the identity on the payload text,
so a parsed response is represented by the text it was parsed from. -/
structure World where
  sendRc : Int
  arrival : Option Nat
  flatJson : String
  deriving DecidableEq, Repr

/-- Post-state of MicroControllerInvocationProtocol.communicate: the outcome
(the returned out_data or the raised exception), the event trace, and the
fields of the protocol object after the call. -/
structure CommResult where
  result : Except VErr (Option String)
  trace : List Event
  response_read_fd : Option Nat
  response_write_fd : Option Nat
  null_read_fd : Option Nat
  null_write_fd : Option Nat
  controllers : List OpenedMC
  fds : List Nat
  fdmd : List Fdmd
  deriving Repr

/-! ## Invocation protocol engine: operations -/

/-- Whether select.select([fd], [], [], timeout) reports the descriptor
ready: data arrived within the timeout budget, both in seconds. -/
def selectReady (arrival : Option Nat) (timeout : Nat) : Bool :=
  match arrival with
  | some t => decide (t ≤ timeout)
  | none => false

/-- Python truthiness of the task identifier field. -/
def pyTruthy (taskId : Option String) : Bool :=
  match taskId with
  | some s => !(s == "")
  | none => false

/-- Modelled from the spec: MicroControllerInvocationProtocol._cancel is
invoked at the timeout path but its definition is not among the provided
source files; per the spec it issues a best-effort (fire-and-forget)
cancellation of the assigned execution to the sandbox. -/
def cancelTrace : List Event := [Event.cancelIssued]

/-- MicroControllerInvocationProtocol._wait_for_read_with_timeout: block on
select with the configured timeout; when nothing is ready, cancel the
assigned execution (when one was assigned) and raise Timeout. -/
def wait_for_read_with_timeout (timeout : Nat) (taskId : Option String)
    (arrival : Option Nat) : Except VErr Unit × List Event :=
  if selectReady arrival timeout then (.ok (), [Event.awaited])
  else if pyTruthy taskId then (.error .timeout, Event.awaited :: cancelTrace)
  else (.error .timeout, [Event.awaited])

/-- MicroControllerInvocationProtocol._read_response: wait for data, read one
bounded chunk, and treat the literal empty-object payload as an absent
result. -/
def read_response (timeout : Nat) (taskId : Option String) (fd : Nat)
    (w : World) : Except VErr (Option String) × List Event :=
  let wr := wait_for_read_with_timeout timeout taskId w.arrival
  match wr.1 with
  | .error e => (.error e, wr.2)
  | .ok _ =>
    if w.flatJson = "\x7b\x7d" then (.ok none, wr.2)
    else (.ok (some w.flatJson), wr.2)

/-- The first loop of communicate: construct a MicroController object per
listed handler name, indexing self.mc_md twice per name (KeyError when a
name is absent).  Path computation follows the MicroController constructor.
The fd fields are filled by openControllers below. -/
def buildControllers (filePath loggerPath : String)
    (mcMd : List (String × McMeta)) : List String → Except VErr (List OpenedMC)
  | [] => .ok []
  | n :: ns =>
    match alookup n mcMd with
    | none => .error (.keyError n)
    | some m =>
      match buildControllers filePath loggerPath mcMd ns with
      | .error e => .error e
      | .ok rest =>
        let stem := rsplitHead n '.'
        .ok (⟨n, m.main, m.deps,
              joinPath filePath (stem ++ ".md"),
              joinPath loggerPath (m.main ++ "/" ++ stem ++ ".log"),
              0, 0⟩ :: rest)

/-- The second loop of communicate: open every controller, metadata file
first then log file, assigning fresh descriptors from the counter. -/
def openControllers (start : Nat) : List OpenedMC → List OpenedMC × Nat
  | [] => ([], start)
  | c :: rest =>
    let r := openControllers (start + 2) rest
    ({ c with mdFd := start, logFd := start + 1 } :: r.1, r.2)

/-- The metadata and log descriptors of the opened controllers, in open
order (and in close order: close() closes the metadata file first). -/
def fdsOf (l : List OpenedMC) : List Nat :=
  l.flatMap (fun o => [o.mdFd, o.logFd])

/-- MicroControllerInvocationProtocol._add_file_req_md: the input marker
descriptor is the write end of the null pipe; its metadata carries the
request headers with the X-Service-Catalog and Cookie entries deleted,
together with the file headers, as one serialized blob. -/
def add_file_req_md (nullWriteFd : Nat) (reqMd fileMd : Headers) : Nat × Fdmd :=
  let r1 := if containsKey reqMd "X-Service-Catalog"
    then eraseKey reqMd "X-Service-Catalog" else reqMd
  let r2 := if containsKey r1 "Cookie" then eraseKey r1 "Cookie" else r1
  (nullWriteFd, ⟨SBUS_FD_INPUT_OBJECT, none, none, none, some (r2, fileMd)⟩)

/-- MicroControllerInvocationProtocol._add_output_stream. -/
def add_output_stream (responseWriteFd : Nat) : Nat × Fdmd :=
  (responseWriteFd, ⟨SBUS_FD_OUTPUT_OBJECT, none, none, none, none⟩)

/-- MicroControllerInvocationProtocol._add_logger_stream: one logger
descriptor per controller, tagged with the handler name, in list order. -/
def add_logger_stream (mcs : List OpenedMC) : List Nat × List Fdmd :=
  (mcs.map (fun mc => mc.logFd),
   mcs.map (fun mc => ⟨SBUS_FD_LOGGER, some mc.name, none, none, none⟩))

/-- MicroControllerInvocationProtocol._add_metadata_stream: one metadata
descriptor per controller, tagged with handler name, main class and
dependency list, in list order. -/
def add_metadata_stream (mcs : List OpenedMC) : List Nat × List Fdmd :=
  (mcs.map (fun mc => mc.mdFd),
   mcs.map (fun mc =>
     ⟨SBUS_FD_OUTPUT_OBJECT_METADATA, some mc.name, some mc.mainClass,
      some mc.dependencies, none⟩))

/-- MicroControllerInvocationProtocol.communicate.  Follows the source:
construct the MicroController objects, open them all, prepare the
invocation descriptors (response pipe, null pipe, input metadata blob,
output stream, loggers, metadata files), send the datagram inside
try/finally where the finally clause closes the response write end (guarded
by its truthiness) and every controller, then read the response and close
the response read end.  The descriptor counter starts at 3, the first free
descriptor after the standard streams. -/
def communicate (filePath mcPipePath loggerPath : String)
    (reqMd fileMd : Headers) (mcList : List String)
    (mcMd : List (String × McMeta)) (timeout : Nat) (w : World) : CommResult :=
  match buildControllers filePath loggerPath mcMd mcList with
  | .error e => ⟨.error e, [], none, none, none, none, [], [], []⟩
  | .ok ctrls =>
    let op := openControllers 3 ctrls
    let mcs := op.1
    let rfd := op.2
    let wfd := op.2 + 1
    let nrfd := op.2 + 2
    let nwfd := op.2 + 3
    let openTr := (fdsOf mcs).map Event.opened ++
      [Event.opened rfd, Event.opened wfd, Event.opened nrfd, Event.opened nwfd]
    let inp := add_file_req_md nwfd reqMd fileMd
    let outp := add_output_stream wfd
    let lg := add_logger_stream mcs
    let mdd := add_metadata_stream mcs
    let fds := [inp.1, outp.1] ++ lg.1 ++ mdd.1
    let fdmd := [inp.2, outp.2] ++ lg.2 ++ mdd.2
    let sendTr := [Event.sent fds fdmd]
    let closeTr := (if wfd ≠ 0 then [Event.closed wfd] else []) ++
      (fdsOf mcs).map Event.closed
    if w.sendRc < 0 then
      ⟨.error .sendFailure, openTr ++ sendTr ++ closeTr,
       some rfd, some wfd, some nrfd, some nwfd, mcs, fds, fdmd⟩
    else
      let rr := read_response timeout none rfd w
      match rr.1 with
      | .error e =>
        ⟨.error e, openTr ++ sendTr ++ closeTr ++ rr.2,
         some rfd, some wfd, some nrfd, some nwfd, mcs, fds, fdmd⟩
      | .ok out =>
        ⟨.ok out, openTr ++ sendTr ++ closeTr ++ rr.2 ++ [Event.closed rfd],
         some rfd, some wfd, some nrfd, some nwfd, mcs, fds, fdmd⟩

/-! ## Trace observations -/

/-- Number of close events for one descriptor in a trace. -/
def countClosed (f : Nat) : List Event → Nat
  | [] => 0
  | .closed g :: rest => (if g = f then 1 else 0) + countClosed f rest
  | _ :: rest => countClosed f rest

/-- Number of occurrences of a descriptor in a descriptor list. -/
def countNat (f : Nat) : List Nat → Nat
  | [] => 0
  | g :: rest => (if g = f then 1 else 0) + countNat f rest

/-- The descriptor-metadata lists of the datagrams sent in a trace. -/
def sentMds : List Event → List (List Fdmd)
  | [] => []
  | .sent _ md :: rest => md :: sentMds rest
  | _ :: rest => sentMds rest

/-- Number of select waits in a trace. -/
def awaitedCount : List Event → Nat
  | [] => 0
  | .awaited :: rest => 1 + awaitedCount rest
  | _ :: rest => awaitedCount rest

/-- Whether a protocol object construction occurs in a trace. -/
def hasProto : List Event → Bool
  | [] => false
  | .protoConstructed _ :: _ => true
  | _ :: rest => hasProto rest

/-- Consecutive naturals: natRange s n lists s, s+1, ..., s+n-1.  Used to
describe the descriptors allocated by openControllers. -/
def natRange (s : Nat) : Nat → List Nat
  | 0 => []
  | n + 1 => s :: natRange (s + 1) n

/-- The handler tags of the logger-tagged descriptors, in order. -/
def loggerHandlers (mds : List Fdmd) : List String :=
  mds.filterMap (fun m => if m.type = SBUS_FD_LOGGER then m.handler else none)

/-- The handler tags of the metadata-tagged descriptors, in order. -/
def metaHandlers (mds : List Fdmd) : List String :=
  mds.filterMap
    (fun m => if m.type = SBUS_FD_OUTPUT_OBJECT_METADATA then m.handler else none)

/-! ## Gateway: store, container runtime, verification loop -/

/-- A response of the backing object store to a metadata-only HEAD probe:
the status code and the two handler metadata headers the gateway reads
(X-Object-Meta-Handler-Main and X-Object-Meta-Handler-Library-Dependency). -/
structure HeadResp where
  status : Nat
  mainHeader : String
  depHeader : String
  deriving DecidableEq, Repr

/-- The backing object store, as seen through cc.make_swift_request:
a HEAD probe per (container, object) pair.  The GET used by
update_mc_cache targets the same objects; its body is not observed by any
verified property, so only the request event is recorded. -/
structure Store where
  head : String → String → HeadResp

/-- The gateway configuration fields read from conf. -/
structure GwConf where
  executionServer : String
  mcTimeout : Nat
  mcContainer : String
  mcDependency : String
  dockerRepo : String
  pipesDir : String
  mcDir : String
  logDir : String
  mcPipe : String
  deriving DecidableEq, Repr

/-- VertigoGatewayDocker.verify_access: issue a HEAD probe; a 2xx status
verifies the object, and when the probed container is the micro-controller
container the response headers are recorded in self.mc_metadata. -/
def verify_access (st : Store) (mcContainer : String)
    (mcMetadata : List (String × McMeta)) (container mcName : String) :
    Bool × List (String × McMeta) × List Event :=
  let resp := st.head container mcName
  if resp.status < 300 ∧ 200 ≤ resp.status then
    (true,
     (if container = mcContainer
      then (mcName, ⟨resp.mainHeader, resp.depHeader⟩) :: mcMetadata
      else mcMetadata),
     [Event.headRequest container mcName])
  else (false, mcMetadata, [Event.headRequest container mcName])

/-- VertigoGatewayDocker.update_mc_cache: GET the object from the store and
write it under mc_dir/scope/main, where main is read from the recorded
metadata of mc_name (KeyError when absent, after the GET was issued). -/
def update_mc_cache (st : Store) (conf : GwConf) (scope : String)
    (mcMetadata : List (String × McMeta)) (container mcName obj : String) :
    Except VErr Unit × List Event :=
  let trGet := [Event.getRequest container obj]
  match alookup mcName mcMetadata with
  | none => (.error (.keyError mcName), trGet)
  | some m =>
    let mcPath := conf.mcDir ++ "/" ++ scope ++ "/" ++ m.main
    (.ok (), trGet ++ [Event.cacheWrite (joinPath mcPath obj)])

/-- The inner loop of execute_microcontrollers over the dependency list of
one verified micro-controller: verify each dependency and mirror it, or
raise NameError at the first dependency the store does not have. -/
def verifyDeps (st : Store) (conf : GwConf) (scope mcName : String) :
    List (String × McMeta) → List String →
    Except VErr (List (String × McMeta)) × List Event
  | md, [] => (.ok md, [])
  | md, dep :: rest =>
    let v := verify_access st conf.mcContainer md conf.mcDependency dep
    if v.1 then
      match update_mc_cache st conf scope v.2.1 conf.mcDependency mcName dep with
      | (.error e, tru) => (.error e, v.2.2 ++ tru)
      | (.ok _, tru) =>
        let r := verifyDeps st conf scope mcName v.2.1 rest
        (r.1, v.2.2 ++ tru ++ r.2)
    else (.error (.depNotFound dep), v.2.2)

/-- The outer loop of execute_microcontrollers over the handler list:
verify each micro-controller, mirror it, then verify and mirror each of its
declared dependencies; raise NameError at the first unresolved name. -/
def verifyMc (st : Store) (conf : GwConf) (scope : String) :
    List (String × McMeta) → List String →
    Except VErr (List (String × McMeta)) × List Event
  | md, [] => (.ok md, [])
  | md, mcName :: rest =>
    let v := verify_access st conf.mcContainer md conf.mcContainer mcName
    if v.1 then
      match update_mc_cache st conf scope v.2.1 conf.mcContainer mcName mcName with
      | (.error e, tru) => (.error e, v.2.2 ++ tru)
      | (.ok _, tru) =>
        match alookup mcName v.2.1 with
        | none => (.error (.keyError mcName), v.2.2 ++ tru)
        | some m =>
          match verifyDeps st conf scope mcName v.2.1 (splitOnChar ',' m.deps) with
          | (.error e, trd) => (.error e, v.2.2 ++ tru ++ trd)
          | (.ok md2, trd) =>
            let r := verifyMc st conf scope md2 rest
            (r.1, v.2.2 ++ tru ++ trd ++ r.2)
    else (.error (.mcNotFound mcName), v.2.2)

/-! ## Gateway: container lifecycle -/

/-- The sandbox name computed by start_container: the docker image name
leader joined with the account identifier (the account with its auth
leader removed when present). -/
def containerName (account : String) : String :=
  "vertigo_" ++
    (if strStartsWith (lowerStr account) "auth_" then strDrop account 5
     else account)

/-- The container runtime invoked through the shelled docker run command:
running a fresh name succeeds (exit 0) and registers the container; a name
already in use fails with docker exit code 125 and changes nothing; exo
injects a launch failure from any other cause (missing image, daemon error),
also a nonzero exit, registering nothing. -/
def dockerRun (running : List String) (name : String) (exo : Option Int) :
    Int × List String :=
  match exo with
  | some c => (c, running)
  | none => if name ∈ running then (125, running) else (0, name :: running)

/-- Post-state of VertigoGatewayDocker.start_container. -/
structure StartResult where
  name : String
  exit : Int
  running : List String
  loggedAlreadyStarted : Bool
  deriving DecidableEq, Repr

/-- VertigoGatewayDocker.start_container: build the container name and the
docker run command, invoke it, and log started on exit 0 or already
started on any nonzero exit.  No branch raises: the exit code is never
fatal to the caller. -/
def start_container (account : String) (running : List String)
    (exo : Option Int) : StartResult :=
  let name := containerName account
  let r := dockerRun running name exo
  if r.1 = 0 then ⟨name, r.1, r.2, false⟩
  else ⟨name, r.1, r.2, true⟩

/-! ## Gateway: execute_microcontrollers -/

/-- Post-state of VertigoGatewayDocker.execute_microcontrollers: the outcome,
the request headers of the caller-owned request object after the call (the
mutation through self.req.headers is visible to the caller), the event
trace, and the running containers after the call. -/
structure ExecResult where
  result : Except VErr (Option String)
  reqHeaders : Headers
  trace : List Event
  running : List String
  deriving Repr

/-- VertigoGatewayDocker.execute_microcontrollers: start the internal client
daemon and the container, verify and mirror every listed micro-controller
and its dependencies, set the X-Current-Server header on the request object
itself, construct the invocation protocol (handing it a copy of the request
headers) and run communicate.  Inputs beyond the configuration: the account,
the caller request headers, the original response headers, the handler list
(self.mc_list), the data file path of the object, the running containers,
the injected docker failure and the world. -/
def execute_microcontrollers (conf : GwConf) (st : Store) (account : String)
    (reqHeaders fileHeaders : Headers) (mcList : List String)
    (dataFile : String) (running : List String) (exo : Option Int)
    (w : World) : ExecResult :=
  let scope := strTake (strDrop account 5) 13
  let sc := start_container account running exo
  let tr1 := [Event.icStarted, Event.containerRun sc.name sc.exit]
  let filePath := rsplitHead dataFile '/'
  match verifyMc st conf scope [] mcList with
  | (.error e, trv) => ⟨.error e, reqHeaders, tr1 ++ trv, sc.running⟩
  | (.ok md, trv) =>
    let loggerPath := conf.logDir ++ "/" ++ scope ++ "/"
    let pipePath := conf.pipesDir ++ "/" ++ scope ++ "/" ++ conf.mcPipe
    let reqHeaders1 := setHeader reqHeaders "X-Current-Server" conf.executionServer
    let c := communicate filePath pipePath loggerPath reqHeaders1 fileHeaders
      mcList md conf.mcTimeout w
    ⟨c.result, reqHeaders1,
     tr1 ++ trv ++ [Event.protoConstructed reqHeaders1] ++ c.trace, sc.running⟩

/-! ## Resolution predicates -/

/-- Whether a HEAD probe of this object in this container verifies it (the
status test of verify_access). -/
def resolvesB (st : Store) (container name : String) : Bool :=
  decide ((st.head container name).status < 300 ∧
    200 ≤ (st.head container name).status)

/-- Whether every handler of the chain and every dependency it declares
passes the store existence check. -/
def allResolveB (st : Store) (conf : GwConf) (mcList : List String) : Bool :=
  mcList.all (fun n =>
    resolvesB st conf.mcContainer n &&
      (splitOnChar ',' (st.head conf.mcContainer n).depHeader).all
        (fun d => resolvesB st conf.mcDependency d))

/-- Classification of the events a gateway-side store or lifecycle
operation can emit (as opposed to the protocol-engine events). -/
def isGatewayEvent : Event → Bool
  | .headRequest _ _ => true
  | .getRequest _ _ => true
  | .cacheWrite _ => true
  | .icStarted => true
  | .containerRun _ _ => true
  | _ => false

/-- Number of occurrences of a name in a list of container names. -/
def countStr (s : String) : List String → Nat
  | [] => 0
  | x :: rest => (if x = s then 1 else 0) + countStr s rest

/-! ## Concrete inputs for witnesses and counterexamples -/

/-- A concrete gateway configuration. -/
def demoConf : GwConf :=
  ⟨"object", 5, "microcontroller", "dependency", "repo", "/pipes", "/mc",
   "/logs", "mc_pipe"⟩

/-- A concrete store holding one handler, resize.mc with main class Resize
and one dependency numpy.jar, and that dependency. -/
def demoStore : Store := ⟨fun container obj =>
  if container = "microcontroller" ∧ obj = "resize.mc" then
    ⟨200, "Resize", "numpy.jar"⟩
  else if container = "dependency" ∧ obj = "numpy.jar" then ⟨200, "", ""⟩
  else ⟨404, "", ""⟩⟩

/-- The in-memory handler metadata matching demoStore after verification. -/
def demoMd : List (String × McMeta) := [("resize.mc", ⟨"Resize", "numpy.jar"⟩)]

/-- Request headers carrying two recognized assignment headers and two
recognized deletion headers. -/
def demoMultiHeaders : Headers :=
  [("X-Vertigo-Onget", "a.mc"), ("X-Vertigo-Onput", "b.mc"),
   ("X-Vertigo-Onget-Delete", "1"), ("X-Vertigo-Delete", "1")]

/-! ## Helper lemmas on traces and descriptor allocation -/

theorem countClosed_append (f : Nat) (a b : List Event) :
    countClosed f (a ++ b) = countClosed f a + countClosed f b := by
  induction a with
  | nil => simp [countClosed]
  | cons x xs ih => cases x <;> simp [countClosed, ih] <;> omega

theorem countClosed_map_opened (f : Nat) (l : List Nat) :
    countClosed f (l.map Event.opened) = 0 := by
  induction l with
  | nil => simp [countClosed]
  | cons x xs ih => simp [countClosed, ih]

theorem countClosed_map_closed (f : Nat) (l : List Nat) :
    countClosed f (l.map Event.closed) = countNat f l := by
  induction l with
  | nil => simp [countClosed, countNat]
  | cons x xs ih => simp [countClosed, countNat, ih]

theorem countClosed_read_response (f timeout fd : Nat) (taskId : Option String)
    (w : World) : countClosed f (read_response timeout taskId fd w).2 = 0 := by
  simp only [read_response, wait_for_read_with_timeout]
  split_ifs <;> simp [countClosed, cancelTrace]

theorem open_next (s : Nat) (l : List OpenedMC) :
    (openControllers s l).2 = s + 2 * l.length := by
  induction l generalizing s with
  | nil => simp [openControllers]
  | cons c rest ih =>
    simp only [openControllers, List.length_cons, ih]
    omega

theorem open_fds (s : Nat) (l : List OpenedMC) :
    fdsOf (openControllers s l).1 = natRange s (2 * l.length) := by
  induction l generalizing s with
  | nil => simp [openControllers, fdsOf, natRange]
  | cons c rest ih =>
    have e1 : 2 * (c :: rest).length = 2 * rest.length + 1 + 1 := by
      simp only [List.length_cons]
      omega
    rw [e1]
    simp only [natRange]
    simp only [openControllers, fdsOf, List.flatMap_cons]
    have hih := ih (s + 2)
    unfold fdsOf at hih
    have e2 : s + 1 + 1 = s + 2 := by omega
    rw [e2]
    simp [hih]

theorem countNat_natRange (f s n : Nat) :
    countNat f (natRange s n) = if s ≤ f ∧ f < s + n then 1 else 0 := by
  induction n generalizing s with
  | zero =>
    simp only [natRange, countNat]
    split_ifs with h
    · omega
    · rfl
  | succ n ih =>
    simp only [natRange, countNat, ih (s + 1)]
    split_ifs <;> omega

theorem mem_fdsOf_of_mem (o : OpenedMC) (l : List OpenedMC) (h : o ∈ l) :
    o.mdFd ∈ fdsOf l ∧ o.logFd ∈ fdsOf l := by
  unfold fdsOf
  constructor <;> exact List.mem_flatMap.mpr ⟨o, h, by simp⟩

theorem mem_natRange (f s n : Nat) : f ∈ natRange s n ↔ s ≤ f ∧ f < s + n := by
  induction n generalizing s with
  | zero =>
    simp [natRange]
    try omega
  | succ n ih =>
    simp [natRange, ih (s + 1)]
    try omega

theorem alookup_isSome_cons {β : Type} (k : String) (p : String × β)
    (md : List (String × β)) (h : (alookup k md).isSome = true) :
    (alookup k (p :: md)).isSome = true := by
  simp only [alookup]
  split_ifs <;> simp [h]

theorem alookup_cons_self {β : Type} (k : String) (v : β)
    (md : List (String × β)) : alookup k ((k, v) :: md) = some v := by
  simp [alookup]

theorem eraseKey_of_not_contains {β : Type} (h : List (String × β)) (k : String)
    (hc : containsKey h k = false) : eraseKey h k = h := by
  induction h with
  | nil => rfl
  | cons p rest ih =>
    by_cases hp : p.1 = k
    · simp [containsKey, alookup, hp] at hc
    · have hrest : containsKey rest k = false := by
        simpa [containsKey, alookup, hp] using hc
      have hkeep : (!(p.1 == k)) = true := by simp [hp]
      simp only [eraseKey, List.filter_cons, hkeep, if_true]
      exact congrArg (p :: ·) (ih hrest)

theorem guarded_eraseKey (h : Headers) (k : String) :
    (if containsKey h k then eraseKey h k else h) = eraseKey h k := by
  by_cases hc : containsKey h k
  · rw [if_pos hc]
  · rw [if_neg hc]
    rw [eraseKey_of_not_contains h k (by simpa using hc)]

theorem alookup_map_set (k v : String) :
    ∀ h : Headers, containsKey h k = true →
      alookup k (h.map (fun q => if q.1 = k then (k, v) else q)) = some v := by
  intro h
  induction h with
  | nil =>
    intro hc
    simp [containsKey, alookup] at hc
  | cons p rest ih =>
    intro hc
    by_cases hp : p.1 = k
    · simp [alookup, hp]
    · have hrest : containsKey rest k = true := by
        simpa [containsKey, alookup, hp] using hc
      simp only [List.map_cons, if_neg hp]
      rw [show alookup k (p :: rest.map (fun q => if q.1 = k then (k, v) else q)) =
        alookup k (rest.map (fun q => if q.1 = k then (k, v) else q)) from by
          simp [alookup, hp]]
      exact ih hrest

theorem alookup_append_single (k v : String) :
    ∀ h : Headers, containsKey h k = false →
      alookup k (h ++ [(k, v)]) = some v := by
  intro h
  induction h with
  | nil =>
    intro hc
    simp [alookup]
  | cons p rest ih =>
    intro hc
    by_cases hp : p.1 = k
    · simp [containsKey, alookup, hp] at hc
    · have hrest : containsKey rest k = false := by
        simpa [containsKey, alookup, hp] using hc
      simp only [List.cons_append]
      rw [show alookup k (p :: (rest ++ [(k, v)])) =
        alookup k (rest ++ [(k, v)]) from by simp [alookup, hp]]
      exact ih hrest

theorem alookup_setHeader (h : Headers) (k v : String) :
    alookup k (setHeader h k v) = some v := by
  unfold setHeader
  split_ifs with hc
  · exact alookup_map_set k v h hc
  · exact alookup_append_single k v h (by simpa using hc)

theorem sentMds_append (a b : List Event) :
    sentMds (a ++ b) = sentMds a ++ sentMds b := by
  induction a with
  | nil => simp [sentMds]
  | cons x xs ih => cases x <;> simp [sentMds, ih]

theorem sentMds_of_gateway (tr : List Event)
    (h : ∀ e ∈ tr, isGatewayEvent e = true) : sentMds tr = [] := by
  induction tr with
  | nil => rfl
  | cons x xs ih =>
    have hx := h x (List.mem_cons_self x xs)
    have hxs : ∀ e ∈ xs, isGatewayEvent e = true := by
      intro e he
      exact h e (List.mem_cons_of_mem _ he)
    cases x <;> simp [isGatewayEvent] at hx <;> simp [sentMds, ih hxs]

theorem hasProto_append (a b : List Event) :
    hasProto (a ++ b) = (hasProto a || hasProto b) := by
  induction a with
  | nil => simp [hasProto]
  | cons x xs ih => cases x <;> simp [hasProto, ih]

theorem hasProto_of_gateway (tr : List Event)
    (h : ∀ e ∈ tr, isGatewayEvent e = true) : hasProto tr = false := by
  induction tr with
  | nil => rfl
  | cons x xs ih =>
    have hx := h x (List.mem_cons_self x xs)
    have hxs : ∀ e ∈ xs, isGatewayEvent e = true := by
      intro e he
      exact h e (List.mem_cons_of_mem _ he)
    cases x <;> simp [isGatewayEvent] at hx <;> simp [hasProto, ih hxs]

theorem awaitedCount_append (a b : List Event) :
    awaitedCount (a ++ b) = awaitedCount a + awaitedCount b := by
  induction a with
  | nil => simp [awaitedCount]
  | cons x xs ih => cases x <;> simp [awaitedCount, ih] <;> omega

theorem awaitedCount_map_opened (l : List Nat) :
    awaitedCount (l.map Event.opened) = 0 := by
  induction l with
  | nil => rfl
  | cons x xs ih => simp [awaitedCount, ih]

theorem awaitedCount_map_closed (l : List Nat) :
    awaitedCount (l.map Event.closed) = 0 := by
  induction l with
  | nil => rfl
  | cons x xs ih => simp [awaitedCount, ih]

theorem sentMds_map_opened (l : List Nat) :
    sentMds (l.map Event.opened) = [] := by
  induction l with
  | nil => rfl
  | cons x xs ih => simp [sentMds, ih]

theorem sentMds_map_closed (l : List Nat) :
    sentMds (l.map Event.closed) = [] := by
  induction l with
  | nil => rfl
  | cons x xs ih => simp [sentMds, ih]

theorem sentMds_read_response (timeout fd : Nat) (taskId : Option String)
    (w : World) : sentMds (read_response timeout taskId fd w).2 = [] := by
  simp only [read_response, wait_for_read_with_timeout]
  split_ifs <;> simp [sentMds, cancelTrace]

theorem countStr_eq_zero_of_not_mem (s : String) (l : List String)
    (h : s ∉ l) : countStr s l = 0 := by
  induction l with
  | nil => rfl
  | cons x xs ih =>
    simp only [List.mem_cons] at h
    push_neg at h
    simp only [countStr]
    rw [if_neg (fun hx => h.1 hx.symm), ih h.2]

/-! ## Verification-loop lemmas -/

theorem verify_access_gateway (st : Store) (mcC : String)
    (md : List (String × McMeta)) (c n : String) :
    ∀ e ∈ (verify_access st mcC md c n).2.2, isGatewayEvent e = true := by
  intro e he
  unfold verify_access at he
  by_cases hs : (st.head c n).status < 300 ∧ 200 ≤ (st.head c n).status
  · rw [if_pos hs] at he
    simp at he
    simp [he, isGatewayEvent]
  · rw [if_neg hs] at he
    simp at he
    simp [he, isGatewayEvent]

theorem update_mc_cache_gateway (st : Store) (conf : GwConf)
    (scope : String) (md : List (String × McMeta)) (c n o : String) :
    ∀ e ∈ (update_mc_cache st conf scope md c n o).2, isGatewayEvent e = true := by
  intro e he
  unfold update_mc_cache at he
  cases hl : alookup n md with
  | none =>
    rw [hl] at he
    simp at he
    simp [he, isGatewayEvent]
  | some m =>
    rw [hl] at he
    simp at he
    rcases he with he | he <;> simp [he, isGatewayEvent]

theorem gateway_append (a b : List Event)
    (ha : ∀ e ∈ a, isGatewayEvent e = true)
    (hb : ∀ e ∈ b, isGatewayEvent e = true) :
    ∀ e ∈ a ++ b, isGatewayEvent e = true := by
  intro e he
  rcases List.mem_append.mp he with h | h
  · exact ha e h
  · exact hb e h

theorem verifyDeps_gateway (st : Store) (conf : GwConf) (scope mcName : String) :
    ∀ (deps : List String) (md : List (String × McMeta)),
      ∀ e ∈ (verifyDeps st conf scope mcName md deps).2, isGatewayEvent e = true := by
  intro deps
  induction deps with
  | nil =>
    intro md e he
    simp [verifyDeps] at he
  | cons d rest ih =>
    intro md
    simp only [verifyDeps]
    rcases hva : verify_access st conf.mcContainer md conf.mcDependency d with
      ⟨vb, vmd, vtr⟩
    have hvg : ∀ e ∈ vtr, isGatewayEvent e = true := by
      have hv0 := verify_access_gateway st conf.mcContainer md conf.mcDependency d
      rw [hva] at hv0
      exact hv0
    cases vb with
    | false => simpa using hvg
    | true =>
      rcases hu : update_mc_cache st conf scope vmd conf.mcDependency mcName d with
        ⟨ur, utr⟩
      have hug : ∀ e ∈ utr, isGatewayEvent e = true := by
        have hu0 := update_mc_cache_gateway st conf scope vmd conf.mcDependency mcName d
        rw [hu] at hu0
        exact hu0
      cases ur with
      | error e2 => simpa using gateway_append vtr utr hvg hug
      | ok u =>
        simpa using gateway_append (vtr ++ utr) _
          (gateway_append vtr utr hvg hug) (ih vmd)

theorem verifyMc_gateway (st : Store) (conf : GwConf) (scope : String) :
    ∀ (l : List String) (md : List (String × McMeta)),
      ∀ e ∈ (verifyMc st conf scope md l).2, isGatewayEvent e = true := by
  intro l
  induction l with
  | nil =>
    intro md e he
    simp [verifyMc] at he
  | cons mcName rest ih =>
    intro md
    simp only [verifyMc]
    rcases hva : verify_access st conf.mcContainer md conf.mcContainer mcName with
      ⟨vb, vmd, vtr⟩
    have hvg : ∀ e ∈ vtr, isGatewayEvent e = true := by
      have hv0 := verify_access_gateway st conf.mcContainer md conf.mcContainer mcName
      rw [hva] at hv0
      exact hv0
    cases vb with
    | false => simpa using hvg
    | true =>
      rcases hu : update_mc_cache st conf scope vmd conf.mcContainer mcName mcName with
        ⟨ur, utr⟩
      have hug : ∀ e ∈ utr, isGatewayEvent e = true := by
        have hu0 := update_mc_cache_gateway st conf scope vmd conf.mcContainer mcName mcName
        rw [hu] at hu0
        exact hu0
      cases ur with
      | error e2 => simpa using gateway_append vtr utr hvg hug
      | ok u =>
        cases hl : alookup mcName vmd with
        | none => simpa using gateway_append vtr utr hvg hug
        | some m =>
          simp only []
          rcases hd : verifyDeps st conf scope mcName vmd (splitOnChar ',' m.deps) with
            ⟨dr, dtr⟩
          have hdg : ∀ e ∈ dtr, isGatewayEvent e = true := by
            have hd0 := verifyDeps_gateway st conf scope mcName (splitOnChar ',' m.deps) vmd
            rw [hd] at hd0
            exact hd0
          cases dr with
          | error e2 =>
            simpa using gateway_append (vtr ++ utr) dtr
              (gateway_append vtr utr hvg hug) hdg
          | ok md2 =>
            simpa using gateway_append ((vtr ++ utr) ++ dtr) _
              (gateway_append (vtr ++ utr) dtr
                (gateway_append vtr utr hvg hug) hdg)
              (ih md2)

theorem verify_access_true (st : Store) (mcC : String)
    (md : List (String × McMeta)) (c n : String)
    (h : resolvesB st c n = true) :
    verify_access st mcC md c n =
      (true,
       (if c = mcC
        then (n, ⟨(st.head c n).mainHeader, (st.head c n).depHeader⟩) :: md
        else md),
       [Event.headRequest c n]) := by
  unfold verify_access
  rw [if_pos (by simpa [resolvesB] using h)]

theorem verify_access_false (st : Store) (mcC : String)
    (md : List (String × McMeta)) (c n : String)
    (h : resolvesB st c n = false) :
    verify_access st mcC md c n = (false, md, [Event.headRequest c n]) := by
  unfold verify_access
  rw [if_neg (by simpa [resolvesB] using h)]

theorem update_mc_cache_ok_of_lookup (st : Store) (conf : GwConf)
    (scope : String) (md : List (String × McMeta)) (c n o : String)
    (m : McMeta) (hl : alookup n md = some m) :
    update_mc_cache st conf scope md c n o =
      (.ok (), [Event.getRequest c o,
        Event.cacheWrite
          (joinPath (conf.mcDir ++ "/" ++ scope ++ "/" ++ m.main) o)]) := by
  unfold update_mc_cache
  rw [hl]
  simp

theorem verifyDeps_cons_step (st : Store) (conf : GwConf) (scope mcName d : String)
    (rest : List String) (md : List (String × McMeta))
    (hd : resolvesB st conf.mcDependency d = true)
    (hmc : (alookup mcName
      (if conf.mcDependency = conf.mcContainer
       then (d, ⟨(st.head conf.mcDependency d).mainHeader,
         (st.head conf.mcDependency d).depHeader⟩) :: md
       else md)).isSome = true) :
    (verifyDeps st conf scope mcName md (d :: rest)).1 =
      (verifyDeps st conf scope mcName
        (if conf.mcDependency = conf.mcContainer
         then (d, ⟨(st.head conf.mcDependency d).mainHeader,
           (st.head conf.mcDependency d).depHeader⟩) :: md
         else md) rest).1 := by
  simp only [verifyDeps]
  rw [verify_access_true st conf.mcContainer md conf.mcDependency d hd]
  simp only []
  cases hl : alookup mcName
      (if conf.mcDependency = conf.mcContainer
       then (d, ⟨(st.head conf.mcDependency d).mainHeader,
         (st.head conf.mcDependency d).depHeader⟩) :: md
       else md) with
  | none =>
    rw [hl] at hmc
    simp at hmc
  | some m =>
    rw [update_mc_cache_ok_of_lookup st conf scope _ conf.mcDependency mcName d m hl]
    simp

theorem verifyMc_cons_step (st : Store) (conf : GwConf) (scope mcName : String)
    (rest : List String) (md : List (String × McMeta))
    (ha : resolvesB st conf.mcContainer mcName = true) :
    (verifyMc st conf scope md (mcName :: rest)).1 =
      (match verifyDeps st conf scope mcName
          ((mcName, ⟨(st.head conf.mcContainer mcName).mainHeader,
            (st.head conf.mcContainer mcName).depHeader⟩) :: md)
          (splitOnChar ',' (st.head conf.mcContainer mcName).depHeader) with
       | (.error e, _) => .error e
       | (.ok md2, _) => (verifyMc st conf scope md2 rest).1) := by
  simp only [verifyMc]
  rw [verify_access_true st conf.mcContainer md conf.mcContainer mcName ha]
  simp only [eq_self_iff_true, if_true]
  rw [update_mc_cache_ok_of_lookup st conf scope _ conf.mcContainer mcName mcName
    ⟨(st.head conf.mcContainer mcName).mainHeader,
      (st.head conf.mcContainer mcName).depHeader⟩ (alookup_cons_self _ _ _)]
  simp only []
  rw [alookup_cons_self]
  simp only []
  rcases hd : verifyDeps st conf scope mcName
      ((mcName, ⟨(st.head conf.mcContainer mcName).mainHeader,
        (st.head conf.mcContainer mcName).depHeader⟩) :: md)
      (splitOnChar ',' (st.head conf.mcContainer mcName).depHeader) with ⟨dr, dtr⟩
  cases dr <;> simp

theorem verifyDeps_ok (st : Store) (conf : GwConf) (scope mcName : String) :
    ∀ (deps : List String) (md : List (String × McMeta)),
      (∀ d ∈ deps, resolvesB st conf.mcDependency d = true) →
      (alookup mcName md).isSome = true →
      ∃ md2, (verifyDeps st conf scope mcName md deps).1 = .ok md2 ∧
        (∀ k, (alookup k md).isSome = true → (alookup k md2).isSome = true) := by
  intro deps
  induction deps with
  | nil =>
    intro md _ _
    exact ⟨md, by simp [verifyDeps], fun k hk => hk⟩
  | cons d rest ih =>
    intro md hall hmc
    have hd := hall d (List.mem_cons_self d rest)
    have hrest : ∀ x ∈ rest, resolvesB st conf.mcDependency x = true :=
      fun x hx => hall x (List.mem_cons_of_mem _ hx)
    have hmono1 : ∀ k, (alookup k md).isSome = true →
        (alookup k (if conf.mcDependency = conf.mcContainer
          then (d, ⟨(st.head conf.mcDependency d).mainHeader,
            (st.head conf.mcDependency d).depHeader⟩) :: md
          else md)).isSome = true := by
      intro k hk
      split_ifs
      · exact alookup_isSome_cons _ _ _ hk
      · exact hk
    have hmc1 := hmono1 mcName hmc
    rw [verifyDeps_cons_step st conf scope mcName d rest md hd hmc1]
    obtain ⟨md2, hok, hmono2⟩ := ih _ hrest hmc1
    exact ⟨md2, hok, fun k hk => hmono2 k (hmono1 k hk)⟩

theorem verifyDeps_err (st : Store) (conf : GwConf) (scope mcName : String) :
    ∀ (deps : List String) (md : List (String × McMeta)),
      (alookup mcName md).isSome = true →
      (∃ d ∈ deps, resolvesB st conf.mcDependency d = false) →
      ∃ d, (verifyDeps st conf scope mcName md deps).1 =
        .error (.depNotFound d) := by
  intro deps
  induction deps with
  | nil =>
    intro md _ h
    simp at h
  | cons d rest ih =>
    intro md hmc h
    by_cases hd : resolvesB st conf.mcDependency d = true
    · have hrest : ∃ x ∈ rest, resolvesB st conf.mcDependency x = false := by
        rcases h with ⟨x, hx, hxf⟩
        rcases List.mem_cons.mp hx with rfl | hx
        · rw [hd] at hxf
          simp at hxf
        · exact ⟨x, hx, hxf⟩
      have hmono1 : ∀ k, (alookup k md).isSome = true →
          (alookup k (if conf.mcDependency = conf.mcContainer
            then (d, ⟨(st.head conf.mcDependency d).mainHeader,
              (st.head conf.mcDependency d).depHeader⟩) :: md
            else md)).isSome = true := by
        intro k hk
        split_ifs
        · exact alookup_isSome_cons _ _ _ hk
        · exact hk
      have hmc1 := hmono1 mcName hmc
      rw [verifyDeps_cons_step st conf scope mcName d rest md hd hmc1]
      exact ih _ hmc1 hrest
    · have hdf : resolvesB st conf.mcDependency d = false := by
        cases hx : resolvesB st conf.mcDependency d
        · rfl
        · exact absurd hx hd
      refine ⟨d, ?_⟩
      simp only [verifyDeps]
      rw [verify_access_false st conf.mcContainer md conf.mcDependency d hdf]
      simp

theorem verifyMc_ok (st : Store) (conf : GwConf) (scope : String) :
    ∀ (l : List String) (md : List (String × McMeta)),
      allResolveB st conf l = true →
      ∃ md2, (verifyMc st conf scope md l).1 = .ok md2 ∧
        (∀ k, (alookup k md).isSome = true → (alookup k md2).isSome = true) ∧
        (∀ n ∈ l, (alookup n md2).isSome = true) := by
  intro l
  induction l with
  | nil =>
    intro md _
    exact ⟨md, by simp [verifyMc], fun k hk => hk, by simp⟩
  | cons mcName rest ih =>
    intro md hall
    have hparts : (resolvesB st conf.mcContainer mcName = true ∧
        ∀ d ∈ splitOnChar ',' (st.head conf.mcContainer mcName).depHeader,
          resolvesB st conf.mcDependency d = true) ∧
        allResolveB st conf rest = true := by
      simpa [allResolveB, List.all_cons, Bool.and_eq_true, List.all_eq_true]
        using hall
    obtain ⟨⟨ha, hb⟩, hc⟩ := hparts
    rw [verifyMc_cons_step st conf scope mcName rest md ha]
    have hmc1 : (alookup mcName
        ((mcName, (⟨(st.head conf.mcContainer mcName).mainHeader,
          (st.head conf.mcContainer mcName).depHeader⟩ : McMeta)) :: md)).isSome
        = true := by
      rw [alookup_cons_self]
      rfl
    obtain ⟨mdD, hDok, hDmono⟩ := verifyDeps_ok st conf scope mcName
      (splitOnChar ',' (st.head conf.mcContainer mcName).depHeader) _ hb hmc1
    rcases hd : verifyDeps st conf scope mcName
        ((mcName, ⟨(st.head conf.mcContainer mcName).mainHeader,
          (st.head conf.mcContainer mcName).depHeader⟩) :: md)
        (splitOnChar ',' (st.head conf.mcContainer mcName).depHeader) with ⟨dr, dtr⟩
    rw [hd] at hDok
    simp only [] at hDok
    subst hDok
    simp only []
    obtain ⟨mdR, hRok, hRmono, hRcov⟩ := ih mdD hc
    refine ⟨mdR, hRok, ?_, ?_⟩
    · intro k hk
      exact hRmono k (hDmono k (alookup_isSome_cons _ _ _ hk))
    · intro n hn
      rcases List.mem_cons.mp hn with rfl | hn
      · exact hRmono n (hDmono n hmc1)
      · exact hRcov n hn

theorem verifyMc_err (st : Store) (conf : GwConf) (scope : String) :
    ∀ (l : List String) (md : List (String × McMeta)),
      allResolveB st conf l = false →
      (∃ n, (verifyMc st conf scope md l).1 = .error (.mcNotFound n)) ∨
      (∃ d, (verifyMc st conf scope md l).1 = .error (.depNotFound d)) := by
  intro l
  induction l with
  | nil =>
    intro md h
    simp [allResolveB] at h
  | cons mcName rest ih =>
    intro md hall
    by_cases ha : resolvesB st conf.mcContainer mcName = true
    · by_cases hb : ∀ d ∈ splitOnChar ',' (st.head conf.mcContainer mcName).depHeader,
          resolvesB st conf.mcDependency d = true
      · have hc : allResolveB st conf rest = false := by
          cases hx : allResolveB st conf rest
          · rfl
          · exfalso
            apply absurd hall
            simp only [allResolveB, List.all_cons, Bool.and_eq_true,
              List.all_eq_true, Bool.not_eq_false]
            refine ⟨⟨ha, hb⟩, ?_⟩
            simpa [allResolveB, List.all_eq_true] using hx
        rw [verifyMc_cons_step st conf scope mcName rest md ha]
        have hmc1 : (alookup mcName
            ((mcName, (⟨(st.head conf.mcContainer mcName).mainHeader,
              (st.head conf.mcContainer mcName).depHeader⟩ : McMeta)) :: md)).isSome
            = true := by
          rw [alookup_cons_self]
          rfl
        obtain ⟨mdD, hDok, hDmono⟩ := verifyDeps_ok st conf scope mcName
          (splitOnChar ',' (st.head conf.mcContainer mcName).depHeader) _ hb hmc1
        rcases hd : verifyDeps st conf scope mcName
            ((mcName, ⟨(st.head conf.mcContainer mcName).mainHeader,
              (st.head conf.mcContainer mcName).depHeader⟩) :: md)
            (splitOnChar ',' (st.head conf.mcContainer mcName).depHeader) with ⟨dr, dtr⟩
        rw [hd] at hDok
        simp only [] at hDok
        subst hDok
        simp only []
        exact ih mdD hc
      · right
        push_neg at hb
        obtain ⟨d0, hd0m, hd0f⟩ := hb
        have hd0 : resolvesB st conf.mcDependency d0 = false := by
          cases hx : resolvesB st conf.mcDependency d0
          · rfl
          · exact absurd hx hd0f
        rw [verifyMc_cons_step st conf scope mcName rest md ha]
        have hmc1 : (alookup mcName
            ((mcName, (⟨(st.head conf.mcContainer mcName).mainHeader,
              (st.head conf.mcContainer mcName).depHeader⟩ : McMeta)) :: md)).isSome
            = true := by
          rw [alookup_cons_self]
          rfl
        obtain ⟨dd, hderr⟩ := verifyDeps_err st conf scope mcName
          (splitOnChar ',' (st.head conf.mcContainer mcName).depHeader) _ hmc1
          ⟨d0, hd0m, hd0⟩
        rcases hd : verifyDeps st conf scope mcName
            ((mcName, ⟨(st.head conf.mcContainer mcName).mainHeader,
              (st.head conf.mcContainer mcName).depHeader⟩) :: md)
            (splitOnChar ',' (st.head conf.mcContainer mcName).depHeader) with ⟨dr, dtr⟩
        rw [hd] at hderr
        simp only [] at hderr
        subst hderr
        simp only []
        exact ⟨dd, rfl⟩
    · left
      have haf : resolvesB st conf.mcContainer mcName = false := by
        cases hx : resolvesB st conf.mcContainer mcName
        · rfl
        · exact absurd hx ha
      refine ⟨mcName, ?_⟩
      simp only [verifyMc]
      rw [verify_access_false st conf.mcContainer md conf.mcContainer mcName haf]
      simp

/-! ## Protocol-construction lemmas -/

theorem buildControllers_ok (fp lp : String) (mcMd : List (String × McMeta)) :
    ∀ l : List String, (∀ n ∈ l, (alookup n mcMd).isSome = true) →
      ∃ cs, buildControllers fp lp mcMd l = .ok cs ∧
        cs.map (fun c => c.name) = l := by
  intro l
  induction l with
  | nil =>
    intro _
    exact ⟨[], rfl, rfl⟩
  | cons n ns ih =>
    intro hcov
    cases hn : alookup n mcMd with
    | none =>
      have hx := hcov n (List.mem_cons_self n ns)
      rw [hn] at hx
      simp at hx
    | some m =>
      obtain ⟨cs, hok, hnames⟩ := ih (fun x hx => hcov x (List.mem_cons_of_mem _ hx))
      simp only [buildControllers]
      rw [hn, hok]
      exact ⟨_, rfl, by simp [hnames]⟩

theorem open_names (s : Nat) (l : List OpenedMC) :
    ((openControllers s l).1).map (fun c => c.name) = l.map (fun c => c.name) := by
  induction l generalizing s with
  | nil => simp [openControllers]
  | cons c rest ih => simp [openControllers, ih]

theorem communicate_fdmd (fp pp lp : String) (reqMd fileMd : Headers)
    (mcList : List String) (mcMd : List (String × McMeta)) (timeout : Nat)
    (w : World) (ctrls : List OpenedMC)
    (hb : buildControllers fp lp mcMd mcList = .ok ctrls) :
    (communicate fp pp lp reqMd fileMd mcList mcMd timeout w).fdmd =
      [(add_file_req_md ((openControllers 3 ctrls).2 + 3) reqMd fileMd).2,
       (add_output_stream ((openControllers 3 ctrls).2 + 1)).2] ++
      (add_logger_stream (openControllers 3 ctrls).1).2 ++
      (add_metadata_stream (openControllers 3 ctrls).1).2 := by
  simp only [communicate, hb]
  by_cases hrc : w.sendRc < 0
  · simp [if_pos hrc]
  · simp only [if_neg hrc]
    cases hr : (read_response timeout none (openControllers 3 ctrls).2 w).1 <;>
      simp [hr]

theorem communicate_sentMds (fp pp lp : String) (reqMd fileMd : Headers)
    (mcList : List String) (mcMd : List (String × McMeta)) (timeout : Nat)
    (w : World) (ctrls : List OpenedMC)
    (hb : buildControllers fp lp mcMd mcList = .ok ctrls) :
    sentMds (communicate fp pp lp reqMd fileMd mcList mcMd timeout w).trace =
      [(communicate fp pp lp reqMd fileMd mcList mcMd timeout w).fdmd] := by
  simp only [communicate, hb]
  by_cases hrc : w.sendRc < 0
  · simp [if_pos hrc, sentMds_append, sentMds_map_opened, sentMds_map_closed,
      sentMds]
  · simp only [if_neg hrc]
    cases hr : (read_response timeout none (openControllers 3 ctrls).2 w).1 <;>
      simp [hr, sentMds_append, sentMds_map_opened, sentMds_map_closed,
        sentMds_read_response, sentMds]

theorem filterMap_const_none {α β : Type} (l : List α) :
    l.filterMap (fun _ => (none : Option β)) = [] := by
  induction l <;> simp [List.filterMap_cons, *]

theorem filterMap_some_comp {α β : Type} (f : α → β) (l : List α) :
    l.filterMap (fun a => some (f a)) = l.map f := by
  induction l <;> simp [List.filterMap_cons, *]

theorem loggerHandlers_shape (nwfd wfd : Nat) (reqMd fileMd : Headers)
    (mcs : List OpenedMC) :
    loggerHandlers ([(add_file_req_md nwfd reqMd fileMd).2,
        (add_output_stream wfd).2] ++
      (add_logger_stream mcs).2 ++ (add_metadata_stream mcs).2) =
      mcs.map (fun c => c.name) := by
  simp [loggerHandlers, add_file_req_md, add_output_stream, add_logger_stream,
    add_metadata_stream, SBUS_FD_INPUT_OBJECT, SBUS_FD_OUTPUT_OBJECT,
    SBUS_FD_LOGGER, SBUS_FD_OUTPUT_OBJECT_METADATA, List.filterMap_append,
    Function.comp_def, filterMap_const_none, filterMap_some_comp]

theorem metaHandlers_shape (nwfd wfd : Nat) (reqMd fileMd : Headers)
    (mcs : List OpenedMC) :
    metaHandlers ([(add_file_req_md nwfd reqMd fileMd).2,
        (add_output_stream wfd).2] ++
      (add_logger_stream mcs).2 ++ (add_metadata_stream mcs).2) =
      mcs.map (fun c => c.name) := by
  simp [metaHandlers, add_file_req_md, add_output_stream, add_logger_stream,
    add_metadata_stream, SBUS_FD_INPUT_OBJECT, SBUS_FD_OUTPUT_OBJECT,
    SBUS_FD_LOGGER, SBUS_FD_OUTPUT_OBJECT_METADATA, List.filterMap_append,
    Function.comp_def, filterMap_const_none, filterMap_some_comp]

/-! ## Claim theorems -/

/-- C4: for every request carrying more than one recognized
trigger-assignment header, and likewise for more than one recognized
trigger-deletion header, the request is rejected with HTTPUnauthorized, an
authorization-class error.  The two parsing functions read only the request
headers (they have no cache, store or sandbox input), so the rejection
precedes any such interaction. -/
theorem c4_multi_trigger_headers_rejected (reqHeaders : Headers) :
    ((availableAssignationHeaders.filter
        (fun i => containsKey reqHeaders i)).length > 1 →
      get_mc_assignation_data reqHeaders = .error .httpUnauthorized) ∧
    ((availableDeletionHeaders.filter
        (fun i => containsKey reqHeaders i)).length > 1 →
      get_mc_deletion_data reqHeaders = .error .httpUnauthorized) := by
  constructor
  · intro h
    unfold get_mc_assignation_data
    simp only [if_pos h]
  · intro h
    unfold get_mc_deletion_data
    simp only [if_pos h]

/-- Witness for C4 at a concrete request carrying two assignment and two
deletion headers. -/
theorem c4_multi_trigger_headers_rejected_witness :
    get_mc_assignation_data demoMultiHeaders = .error .httpUnauthorized ∧
    get_mc_deletion_data demoMultiHeaders = .error .httpUnauthorized :=
  ⟨(c4_multi_trigger_headers_rejected demoMultiHeaders).1 (by decide),
   (c4_multi_trigger_headers_rejected demoMultiHeaders).2 (by decide)⟩

/-- C9: whenever the trigger metadata record is present and the method maps
to one of the four trigger keys, get_microcontrollers returns True and sets
the handler list to the comma-split of the stored value; in particular for
the unset default value None the handler list becomes the one-element list
holding the text None, because the guard compares a Python list against a
str (pyEq of values of different types) and never holds. -/
theorem c9_none_default_not_suppressed (method : String) (md : TriggerMd)
    (prior : Option (List String)) (v : String)
    (h : triggerLookup md ("on" ++ lowerStr method) = some v) :
    get_microcontrollers method (some md) prior =
      .ok (true, some (splitOnChar ',' v)) ∧
    (v = "None" →
      get_microcontrollers method (some md) prior = .ok (true, some ["None"])) := by
  have hmain : get_microcontrollers method (some md) prior =
      .ok (true, some (splitOnChar ',' v)) := by
    simp only [get_microcontrollers]
    rw [h]
    simp [pyEq]
  refine ⟨hmain, fun hv => ?_⟩
  subst hv
  have hs : splitOnChar ',' "None" = ["None"] := by decide
  rw [hs] at hmain
  exact hmain

/-- Witness for C9: an object whose on-get trigger holds the unset default
None still yields True and the handler list containing the text None. -/
theorem c9_none_default_not_suppressed_witness :
    get_microcontrollers "GET" (some ⟨"None", "None", "None", "None"⟩) none =
      .ok (true, some ["None"]) :=
  (c9_none_default_not_suppressed "GET" ⟨"None", "None", "None", "None"⟩
    none "None" rfl).2 rfl

/-- C5: when no data becomes ready on the response pipe read end within the
configured timeout in seconds, the wait raises Timeout, and when an
execution identifier had been assigned the best-effort cancellation (the
spec-modelled _cancel) is issued before the raise: the trace of the failed
wait ends with the cancellation. -/
theorem c5_timeout_cancels_then_raises (timeout : Nat) (taskId : Option String)
    (arrival : Option Nat) (h : selectReady arrival timeout = false) :
    (wait_for_read_with_timeout timeout taskId arrival).1 = .error .timeout ∧
    (pyTruthy taskId = true →
      (wait_for_read_with_timeout timeout taskId arrival).2 =
        Event.awaited :: cancelTrace) := by
  unfold wait_for_read_with_timeout
  rw [h]
  cases hp : pyTruthy taskId <;> simp

/-- Witness for C5 at a concrete wait with an assigned execution identifier
and no data ever arriving. -/
theorem c5_timeout_cancels_then_raises_witness :
    selectReady none 5 = false ∧
    (wait_for_read_with_timeout 5 (some "task-1") none).1 = .error .timeout ∧
    (wait_for_read_with_timeout 5 (some "task-1") none).2 =
      Event.awaited :: cancelTrace :=
  ⟨rfl, (c5_timeout_cancels_then_raises 5 (some "task-1") none rfl).1,
   (c5_timeout_cancels_then_raises 5 (some "task-1") none rfl).2 rfl⟩

/-- C1 counterexample: on the timeout path the read end of the output pipe
is opened but never closed, so it is not the case that every listed
descriptor is closed exactly once on all terminal paths.  Concrete
invocation: empty handler list, send succeeds, no response ever arrives. -/
theorem c1_read_end_leak_counterexample :
    (communicate "/srv/o" "/p" "/l" [] [] [] [] 5 ⟨0, none, "x"⟩).result =
      .error .timeout ∧
    (communicate "/srv/o" "/p" "/l" [] [] [] [] 5
      ⟨0, none, "x"⟩).response_read_fd = some 3 ∧
    Event.opened 3 ∈ (communicate "/srv/o" "/p" "/l" [] [] [] [] 5
      ⟨0, none, "x"⟩).trace ∧
    countClosed 3 (communicate "/srv/o" "/p" "/l" [] [] [] [] 5
      ⟨0, none, "x"⟩).trace = 0 := by
  refine ⟨rfl, rfl, ?_, rfl⟩
  decide

/-- C1 (amended): on every terminal outcome of communicate (completed,
timed out, or failed), the write end of the output pipe and both files of
every opened Handler Resource Handle are closed exactly once; the read end
of the output pipe, however, is closed exactly once on the completed
outcome only and is not closed on the timeout and failure outcomes. -/
theorem c1_cleanup_amended (fp pp lp : String) (reqMd fileMd : Headers)
    (mcList : List String) (mcMd : List (String × McMeta)) (timeout : Nat)
    (w : World) :
    (∀ fd,
      (communicate fp pp lp reqMd fileMd mcList mcMd timeout w).response_write_fd
        = some fd →
      countClosed fd
        (communicate fp pp lp reqMd fileMd mcList mcMd timeout w).trace = 1) ∧
    (∀ o, o ∈ (communicate fp pp lp reqMd fileMd mcList mcMd timeout w).controllers →
      countClosed o.mdFd
        (communicate fp pp lp reqMd fileMd mcList mcMd timeout w).trace = 1 ∧
      countClosed o.logFd
        (communicate fp pp lp reqMd fileMd mcList mcMd timeout w).trace = 1) ∧
    (∀ fd,
      (communicate fp pp lp reqMd fileMd mcList mcMd timeout w).response_read_fd
        = some fd →
      countClosed fd
        (communicate fp pp lp reqMd fileMd mcList mcMd timeout w).trace =
        if isOkE (communicate fp pp lp reqMd fileMd mcList mcMd timeout w).result
        then 1 else 0) := by
  cases hb : buildControllers fp lp mcMd mcList with
  | error e =>
    refine ⟨fun fd hfd => ?_, fun o ho => ?_, fun fd hfd => ?_⟩
    · simp [communicate, hb] at hfd
    · simp [communicate, hb] at ho
    · simp [communicate, hb] at hfd
  | ok ctrls =>
    have hnext := open_next 3 ctrls
    have hfds := open_fds 3 ctrls
    have hw : 3 + 2 * ctrls.length + 1 ≠ 0 := by omega
    simp only [communicate, hb]
    by_cases hrc : w.sendRc < 0
    · simp only [if_pos hrc]
      refine ⟨fun fd hfd => ?_, fun o ho => ?_, fun fd hfd => ?_⟩
      · simp only [Option.some.injEq] at hfd
        subst hfd
        simp [countClosed_append, countClosed_map_opened,
          countClosed_map_closed, countClosed_read_response, countClosed,
          hw, hfds, hnext, countNat_natRange]
        try split_ifs <;> omega
      · simp only [] at ho
        have hmd := (mem_natRange o.mdFd 3 (2 * ctrls.length)).1
          (hfds ▸ (mem_fdsOf_of_mem o _ ho).1)
        have hlg := (mem_natRange o.logFd 3 (2 * ctrls.length)).1
          (hfds ▸ (mem_fdsOf_of_mem o _ ho).2)
        constructor <;>
          · simp [countClosed_append, countClosed_map_opened,
              countClosed_map_closed, countClosed_read_response, countClosed,
              hw, hfds, hnext, countNat_natRange]
            try split_ifs <;> omega
      · simp only [Option.some.injEq] at hfd
        subst hfd
        simp [countClosed_append, countClosed_map_opened,
          countClosed_map_closed, countClosed_read_response, countClosed,
          hw, hfds, hnext, countNat_natRange, isOkE]
        try split_ifs <;> omega
    · simp only [if_neg hrc]
      cases hr : (read_response timeout none (openControllers 3 ctrls).2 w).1 with
      | error e2 =>
        simp only [hr]
        refine ⟨fun fd hfd => ?_, fun o ho => ?_, fun fd hfd => ?_⟩
        · simp only [Option.some.injEq] at hfd
          subst hfd
          simp [countClosed_append, countClosed_map_opened,
            countClosed_map_closed, countClosed_read_response, countClosed,
            hw, hfds, hnext, countNat_natRange]
          try split_ifs <;> omega
        · simp only [] at ho
          have hmd := (mem_natRange o.mdFd 3 (2 * ctrls.length)).1
            (hfds ▸ (mem_fdsOf_of_mem o _ ho).1)
          have hlg := (mem_natRange o.logFd 3 (2 * ctrls.length)).1
            (hfds ▸ (mem_fdsOf_of_mem o _ ho).2)
          constructor <;>
            · simp [countClosed_append, countClosed_map_opened,
                countClosed_map_closed, countClosed_read_response, countClosed,
                hw, hfds, hnext, countNat_natRange]
              try split_ifs <;> omega
        · simp only [Option.some.injEq] at hfd
          subst hfd
          simp [countClosed_append, countClosed_map_opened,
            countClosed_map_closed, countClosed_read_response, countClosed,
            hw, hfds, hnext, countNat_natRange, isOkE]
          try split_ifs <;> omega
      | ok out =>
        simp only [hr]
        refine ⟨fun fd hfd => ?_, fun o ho => ?_, fun fd hfd => ?_⟩
        · simp only [Option.some.injEq] at hfd
          subst hfd
          simp [countClosed_append, countClosed_map_opened,
            countClosed_map_closed, countClosed_read_response, countClosed,
            hw, hfds, hnext, countNat_natRange]
          try split_ifs <;> omega
        · simp only [] at ho
          have hmd := (mem_natRange o.mdFd 3 (2 * ctrls.length)).1
            (hfds ▸ (mem_fdsOf_of_mem o _ ho).1)
          have hlg := (mem_natRange o.logFd 3 (2 * ctrls.length)).1
            (hfds ▸ (mem_fdsOf_of_mem o _ ho).2)
          constructor <;>
            · simp [countClosed_append, countClosed_map_opened,
                countClosed_map_closed, countClosed_read_response, countClosed,
                hw, hfds, hnext, countNat_natRange]
              try split_ifs <;> omega
        · simp only [Option.some.injEq] at hfd
          subst hfd
          simp [countClosed_append, countClosed_map_opened,
            countClosed_map_closed, countClosed_read_response, countClosed,
            hw, hfds, hnext, countNat_natRange, isOkE]
          try split_ifs <;> omega

/-- Witness for C1 (amended) at a concrete completed invocation with one
handler: both handle descriptors, the write end and (on this completed
path) the read end are each closed exactly once. -/
theorem c1_cleanup_amended_witness :
    (communicate "/srv/o" "/p" "/l" [] [] ["resize.mc"] demoMd 5
      ⟨0, some 3, "data"⟩).response_write_fd = some 6 ∧
    countClosed 6 (communicate "/srv/o" "/p" "/l" [] [] ["resize.mc"] demoMd 5
      ⟨0, some 3, "data"⟩).trace = 1 :=
  ⟨rfl,
   (c1_cleanup_amended "/srv/o" "/p" "/l" [] [] ["resize.mc"] demoMd 5
     ⟨0, some 3, "data"⟩).1 6 rfl⟩

/-- C6 counterexample: a positive (hence non-zero) result of SBus.send is
not fatal: the invocation proceeds to await the response and completes.
Concrete invocation: send returns 1, response arrives in time. -/
theorem c6_positive_send_counterexample :
    (communicate "/srv/o" "/p" "/l" [] [] ["resize.mc"] demoMd 5
      ⟨1, some 3, "data"⟩).result = .ok (some "data") ∧
    awaitedCount (communicate "/srv/o" "/p" "/l" [] [] ["resize.mc"] demoMd 5
      ⟨1, some 3, "data"⟩).trace = 1 := by
  exact ⟨rfl, rfl⟩

/-- C7 counterexample: a launch failure whose cause is not an existing name
(injected exit code 1 on a runtime with no container of that name) is
treated exactly like already-started and is not fatal: start_container
returns normally and the invocation proceeds to completion. -/
theorem c7_other_failure_not_fatal_counterexample :
    (start_container "AUTH_test" [] (some 1)).exit = 1 ∧
    (start_container "AUTH_test" [] (some 1)).loggedAlreadyStarted = true ∧
    (execute_microcontrollers demoConf demoStore "AUTH_0123456789abcdef" []
      [] ["resize.mc"] "/objects/o1/data" [] (some 1)
      ⟨0, some 3, "data"⟩).result = .ok (some "data") := by
  exact ⟨rfl, rfl, rfl⟩

/-- C10 counterexample: a call of execute_microcontrollers whose handler
chain fails verification raises before the header assignment, so the
caller request object is not mutated: X-Current-Server is absent after the
call. -/
theorem c10_no_mutation_on_notfound_counterexample :
    (execute_microcontrollers demoConf demoStore "AUTH_0123456789abcdef"
      [("Cookie", "c")] [] ["missing.mc"] "/objects/o1/data" [] none
      ⟨0, some 3, "data"⟩).result = .error (.mcNotFound "missing.mc") ∧
    alookup "X-Current-Server"
      (execute_microcontrollers demoConf demoStore "AUTH_0123456789abcdef"
        [("Cookie", "c")] [] ["missing.mc"] "/objects/o1/data" [] none
        ⟨0, some 3, "data"⟩).reqHeaders = none := by
  exact ⟨rfl, rfl⟩

/-- C6 (amended): a negative result returned from SBus.send is fatal: the
invocation raises the send-failure error and never reaches the select wait
on the response pipe.  (A positive, hence non-zero, send result is treated
as success; see the counterexample.) -/
theorem c6_negative_send_fatal (fp pp lp : String) (reqMd fileMd : Headers)
    (mcList : List String) (mcMd : List (String × McMeta)) (timeout : Nat)
    (w : World) (hcov : ∀ n ∈ mcList, (alookup n mcMd).isSome = true)
    (hrc : w.sendRc < 0) :
    (communicate fp pp lp reqMd fileMd mcList mcMd timeout w).result =
      .error .sendFailure ∧
    awaitedCount
      (communicate fp pp lp reqMd fileMd mcList mcMd timeout w).trace = 0 := by
  obtain ⟨ctrls, hb, _⟩ := buildControllers_ok fp lp mcMd mcList hcov
  simp only [communicate, hb, if_pos hrc]
  exact ⟨by simp,
    by simp [awaitedCount_append, awaitedCount_map_opened,
      awaitedCount_map_closed, awaitedCount]⟩

/-- Witness for C6 (amended) at a concrete invocation whose send returns a
negative code. -/
theorem c6_negative_send_fatal_witness :
    (communicate "/srv/o" "/p" "/l" [] [] ["resize.mc"] demoMd 5
      ⟨-1, some 3, "data"⟩).result = .error .sendFailure ∧
    awaitedCount (communicate "/srv/o" "/p" "/l" [] [] ["resize.mc"] demoMd 5
      ⟨-1, some 3, "data"⟩).trace = 0 :=
  c6_negative_send_fatal "/srv/o" "/p" "/l" [] [] ["resize.mc"] demoMd 5
    ⟨-1, some 3, "data"⟩ (by decide) (by decide)

/-- C2: whenever at least one handler of the chain or one of its declared
dependencies fails the store existence check, execute_microcontrollers
raises the handler-or-dependency-not-found NameError, no invocation
protocol object is constructed, and no descriptor set is sent (no partial
handler chain is executed). -/
theorem c2_unresolved_chain_aborts (conf : GwConf) (st : Store)
    (account : String) (reqHeaders fileHeaders : Headers)
    (mcList : List String) (dataFile : String) (running : List String)
    (exo : Option Int) (w : World)
    (h : allResolveB st conf mcList = false) :
    ((∃ n, (execute_microcontrollers conf st account reqHeaders fileHeaders
        mcList dataFile running exo w).result = .error (.mcNotFound n)) ∨
     (∃ d, (execute_microcontrollers conf st account reqHeaders fileHeaders
        mcList dataFile running exo w).result = .error (.depNotFound d))) ∧
    sentMds (execute_microcontrollers conf st account reqHeaders fileHeaders
      mcList dataFile running exo w).trace = [] ∧
    hasProto (execute_microcontrollers conf st account reqHeaders fileHeaders
      mcList dataFile running exo w).trace = false := by
  have herr := verifyMc_err st conf (strTake (strDrop account 5) 13) mcList [] h
  have hgw := verifyMc_gateway st conf (strTake (strDrop account 5) 13) mcList []
  rcases hv : verifyMc st conf (strTake (strDrop account 5) 13) [] mcList with
    ⟨vres, vtr⟩
  rw [hv] at herr hgw
  have hvtr : ∀ e ∈ vtr, isGatewayEvent e = true := hgw
  have hsent : sentMds vtr = [] := sentMds_of_gateway vtr hvtr
  have hproto : hasProto vtr = false := hasProto_of_gateway vtr hvtr
  rcases herr with ⟨n, hn⟩ | ⟨d, hd⟩
  · simp only [] at hn
    subst hn
    refine ⟨Or.inl ⟨n, ?_⟩, ?_, ?_⟩
    · simp only [execute_microcontrollers]
      rw [hv]
    · simp only [execute_microcontrollers]
      rw [hv]
      simp [sentMds_append, sentMds, hsent]
    · simp only [execute_microcontrollers]
      rw [hv]
      simp [hasProto_append, hasProto, hproto]
  · simp only [] at hd
    subst hd
    refine ⟨Or.inr ⟨d, ?_⟩, ?_, ?_⟩
    · simp only [execute_microcontrollers]
      rw [hv]
    · simp only [execute_microcontrollers]
      rw [hv]
      simp [sentMds_append, sentMds, hsent]
    · simp only [execute_microcontrollers]
      rw [hv]
      simp [hasProto_append, hasProto, hproto]

/-- Witness for C2 at a concrete chain whose only handler is absent from
the store. -/
theorem c2_unresolved_chain_aborts_witness :
    allResolveB demoStore demoConf ["missing.mc"] = false ∧
    sentMds (execute_microcontrollers demoConf demoStore
      "AUTH_0123456789abcdef" [] [] ["missing.mc"] "/objects/o1/data" []
      none ⟨0, some 3, "d"⟩).trace = [] :=
  ⟨rfl,
   (c2_unresolved_chain_aborts demoConf demoStore "AUTH_0123456789abcdef"
     [] [] ["missing.mc"] "/objects/o1/data" [] none ⟨0, some 3, "d"⟩
     rfl).2.1⟩

/-- C3: for every handler chain in which every handler and every declared
dependency resolves, exactly one descriptor set is sent for the invocation,
and within it the handler tags of the logger descriptors and of the
metadata descriptors each appear in exactly the order of the handler list
of the trigger. -/
theorem c3_single_ordered_descriptor_set (conf : GwConf) (st : Store)
    (account : String) (reqHeaders fileHeaders : Headers)
    (mcList : List String) (dataFile : String) (running : List String)
    (exo : Option Int) (w : World)
    (h : allResolveB st conf mcList = true) :
    ∃ mds, sentMds (execute_microcontrollers conf st account reqHeaders
        fileHeaders mcList dataFile running exo w).trace = [mds] ∧
      loggerHandlers mds = mcList ∧ metaHandlers mds = mcList := by
  obtain ⟨md2, hok, hmono, hcov⟩ :=
    verifyMc_ok st conf (strTake (strDrop account 5) 13) mcList [] h
  rcases hv : verifyMc st conf (strTake (strDrop account 5) 13) [] mcList with
    ⟨vres, vtr⟩
  rw [hv] at hok
  simp only [] at hok
  subst hok
  have hgw := verifyMc_gateway st conf (strTake (strDrop account 5) 13) mcList []
  rw [hv] at hgw
  have hsent : sentMds vtr = [] := sentMds_of_gateway vtr hgw
  obtain ⟨ctrls, hb, hnames⟩ := buildControllers_ok (rsplitHead dataFile '/')
    (conf.logDir ++ "/" ++ strTake (strDrop account 5) 13 ++ "/") md2 mcList hcov
  have hA : sentMds (execute_microcontrollers conf st account reqHeaders
      fileHeaders mcList dataFile running exo w).trace =
      [(communicate (rsplitHead dataFile '/')
        (conf.pipesDir ++ "/" ++ strTake (strDrop account 5) 13 ++ "/" ++ conf.mcPipe)
        (conf.logDir ++ "/" ++ strTake (strDrop account 5) 13 ++ "/")
        (setHeader reqHeaders "X-Current-Server" conf.executionServer)
        fileHeaders mcList md2 conf.mcTimeout w).fdmd] := by
    simp only [execute_microcontrollers]
    rw [hv]
    simp [sentMds_append, sentMds, hsent,
      communicate_sentMds _ _ _ _ _ _ _ _ _ ctrls hb]
  refine ⟨_, hA, ?_, ?_⟩
  · rw [communicate_fdmd _ _ _ _ _ _ _ _ _ ctrls hb, loggerHandlers_shape,
      open_names, hnames]
  · rw [communicate_fdmd _ _ _ _ _ _ _ _ _ ctrls hb, metaHandlers_shape,
      open_names, hnames]

/-- Witness for C3 at a concrete resolving chain of one handler. -/
theorem c3_single_ordered_descriptor_set_witness :
    ∃ mds, sentMds (execute_microcontrollers demoConf demoStore
        "AUTH_0123456789abcdef" [] [] ["resize.mc"] "/objects/o1/data" []
        none ⟨0, some 3, "data"⟩).trace = [mds] ∧
      loggerHandlers mds = ["resize.mc"] ∧ metaHandlers mds = ["resize.mc"] :=
  c3_single_ordered_descriptor_set demoConf demoStore "AUTH_0123456789abcdef"
    [] [] ["resize.mc"] "/objects/o1/data" [] none ⟨0, some 3, "data"⟩ rfl

/-- C8: the descriptor set of an invocation contains exactly one input
marker descriptor, whose single structured blob holds the request headers
with the transport-identity headers X-Service-Catalog and Cookie removed
together with the response headers of the target object; exactly one
output-stream descriptor; and per handler one logger descriptor and one
metadata descriptor, in handler-list order and carrying the handler
attribution (every descriptor carries its type tag by construction). -/
theorem c8_descriptor_set_contents (fp pp lp : String) (reqMd fileMd : Headers)
    (mcList : List String) (mcMd : List (String × McMeta)) (timeout : Nat)
    (w : World) (hcov : ∀ n ∈ mcList, (alookup n mcMd).isSome = true) :
    (communicate fp pp lp reqMd fileMd mcList mcMd timeout w).fdmd.filter
        (fun m => m.type == SBUS_FD_INPUT_OBJECT) =
      [⟨SBUS_FD_INPUT_OBJECT, none, none, none,
        some (eraseKey (eraseKey reqMd "X-Service-Catalog") "Cookie", fileMd)⟩] ∧
    (communicate fp pp lp reqMd fileMd mcList mcMd timeout w).fdmd.filter
        (fun m => m.type == SBUS_FD_OUTPUT_OBJECT) =
      [⟨SBUS_FD_OUTPUT_OBJECT, none, none, none, none⟩] ∧
    ((communicate fp pp lp reqMd fileMd mcList mcMd timeout w).fdmd.filter
        (fun m => m.type == SBUS_FD_LOGGER)).map (fun m => m.handler) =
      mcList.map some ∧
    ((communicate fp pp lp reqMd fileMd mcList mcMd timeout w).fdmd.filter
        (fun m => m.type == SBUS_FD_OUTPUT_OBJECT_METADATA)).map
        (fun m => m.handler) = mcList.map some := by
  obtain ⟨ctrls, hb, hnames⟩ := buildControllers_ok fp lp mcMd mcList hcov
  rw [communicate_fdmd fp pp lp reqMd fileMd mcList mcMd timeout w ctrls hb]
  have hno := open_names 3 ctrls
  refine ⟨?_, ?_, ?_, ?_⟩ <;>
    simp [add_file_req_md, add_output_stream, add_logger_stream,
      add_metadata_stream, SBUS_FD_INPUT_OBJECT, SBUS_FD_OUTPUT_OBJECT,
      SBUS_FD_LOGGER, SBUS_FD_OUTPUT_OBJECT_METADATA, List.filter_append,
      List.filter_map, Function.comp_def, guarded_eraseKey, hno, hnames] <;>
    rw [← hnames, ← hno] <;>
    simp [List.map_map, Function.comp_def]

/-- Witness for C8 at a concrete invocation with one handler. -/
theorem c8_descriptor_set_contents_witness :
    ((communicate "/srv/o" "/p" "/l" [("Cookie", "c")] [] ["resize.mc"]
        demoMd 5 ⟨0, some 3, "data"⟩).fdmd.filter
        (fun m => m.type == SBUS_FD_LOGGER)).map (fun m => m.handler) =
      ["resize.mc"].map some :=
  (c8_descriptor_set_contents "/srv/o" "/p" "/l" [("Cookie", "c")] []
    ["resize.mc"] demoMd 5 ⟨0, some 3, "data"⟩ (by decide)).2.2.1

/-- C7 (amended): start_container never fails its caller: a launch failure
because the sandbox name already exists and a launch failure from any other
cause are both logged as already-started and the invocation proceeds (its
outcome does not depend on the launch result); starting twice in
succession for the same scope yields exactly one registered sandbox and no
error on the second call. -/
theorem c7_start_idempotent_failures_swallowed (conf : GwConf) (st : Store)
    (account : String) (reqHeaders fileHeaders : Headers)
    (mcList : List String) (dataFile : String) (running : List String)
    (exo : Option Int) (w : World)
    (hnr : containerName account ∉ running) :
    (start_container account running none).exit = 0 ∧
    (start_container account
      (start_container account running none).running none).exit ≠ 0 ∧
    (start_container account
      (start_container account running none).running none).loggedAlreadyStarted
      = true ∧
    (start_container account
      (start_container account running none).running none).running =
      containerName account :: running ∧
    countStr (containerName account)
      (start_container account
        (start_container account running none).running none).running = 1 ∧
    (execute_microcontrollers conf st account reqHeaders fileHeaders mcList
      dataFile running exo w).result =
    (execute_microcontrollers conf st account reqHeaders fileHeaders mcList
      dataFile running none w).result := by
  have h1 : start_container account running none =
      ⟨containerName account, 0, containerName account :: running, false⟩ := by
    unfold start_container dockerRun
    simp only []
    rw [if_neg hnr]
    simp
  have h2 : start_container account (containerName account :: running) none =
      ⟨containerName account, 125, containerName account :: running, true⟩ := by
    unfold start_container dockerRun
    simp only []
    rw [if_pos (List.mem_cons_self _ _)]
    simp
  rw [h1]
  simp only []
  rw [h2]
  refine ⟨by simp, by norm_num, by simp, by simp, ?_, ?_⟩
  · simp [countStr, countStr_eq_zero_of_not_mem (containerName account) running hnr]
  · rcases hv : verifyMc st conf (strTake (strDrop account 5) 13) [] mcList with
      ⟨vres, vtr⟩
    cases vres <;> simp [execute_microcontrollers, hv]

/-- Witness for C7 (amended) at a concrete account and empty runtime, with
an injected unrelated launch failure. -/
theorem c7_start_idempotent_failures_swallowed_witness :
    (start_container "AUTH_test" [] none).exit = 0 ∧
    (start_container "AUTH_test"
      (start_container "AUTH_test" [] none).running none).exit ≠ 0 ∧
    (start_container "AUTH_test"
      (start_container "AUTH_test" [] none).running none).loggedAlreadyStarted
      = true ∧
    (start_container "AUTH_test"
      (start_container "AUTH_test" [] none).running none).running =
      containerName "AUTH_test" :: [] ∧
    countStr (containerName "AUTH_test")
      (start_container "AUTH_test"
        (start_container "AUTH_test" [] none).running none).running = 1 ∧
    (execute_microcontrollers demoConf demoStore "AUTH_test" [] []
      ["resize.mc"] "/objects/o1/data" [] (some 1) ⟨0, some 3, "d"⟩).result =
    (execute_microcontrollers demoConf demoStore "AUTH_test" [] []
      ["resize.mc"] "/objects/o1/data" [] none ⟨0, some 3, "d"⟩).result :=
  c7_start_idempotent_failures_swallowed demoConf demoStore "AUTH_test" [] []
    ["resize.mc"] "/objects/o1/data" [] (some 1) ⟨0, some 3, "d"⟩
    (by simp)

/-- C10 (amended): for every call of execute_microcontrollers whose handler
chain fully resolves (so the invocation protocol is constructed), the
X-Current-Server header is set on the caller-owned request object itself
before the protocol object is built (the construction event carries the
already-mutated headers), and the mutation persists on the request after
the call whatever the outcome of communicate; a call that fails
verification raises before the assignment and leaves the request
unchanged. -/
theorem c10_request_mutated_before_protocol (conf : GwConf) (st : Store)
    (account : String) (reqHeaders fileHeaders : Headers)
    (mcList : List String) (dataFile : String) (running : List String)
    (exo : Option Int) (w : World)
    (h : allResolveB st conf mcList = true) :
    (execute_microcontrollers conf st account reqHeaders fileHeaders mcList
      dataFile running exo w).reqHeaders =
      setHeader reqHeaders "X-Current-Server" conf.executionServer ∧
    alookup "X-Current-Server"
      (execute_microcontrollers conf st account reqHeaders fileHeaders mcList
        dataFile running exo w).reqHeaders = some conf.executionServer ∧
    Event.protoConstructed
        (setHeader reqHeaders "X-Current-Server" conf.executionServer) ∈
      (execute_microcontrollers conf st account reqHeaders fileHeaders mcList
        dataFile running exo w).trace := by
  obtain ⟨md2, hok, hmono, hcov⟩ :=
    verifyMc_ok st conf (strTake (strDrop account 5) 13) mcList [] h
  rcases hv : verifyMc st conf (strTake (strDrop account 5) 13) [] mcList with
    ⟨vres, vtr⟩
  rw [hv] at hok
  simp only [] at hok
  subst hok
  refine ⟨?_, ?_, ?_⟩
  · simp only [execute_microcontrollers]
    rw [hv]
  · simp only [execute_microcontrollers]
    rw [hv]
    simp only []
    exact alookup_setHeader reqHeaders "X-Current-Server" conf.executionServer
  · simp only [execute_microcontrollers]
    rw [hv]
    simp [List.mem_append]

/-- Witness for C10 (amended) at a concrete resolving invocation. -/
theorem c10_request_mutated_before_protocol_witness :
    (execute_microcontrollers demoConf demoStore "AUTH_0123456789abcdef"
      [("Cookie", "c")] [] ["resize.mc"] "/objects/o1/data" [] none
      ⟨0, some 3, "data"⟩).reqHeaders =
      setHeader [("Cookie", "c")] "X-Current-Server" demoConf.executionServer ∧
    alookup "X-Current-Server"
      (execute_microcontrollers demoConf demoStore "AUTH_0123456789abcdef"
        [("Cookie", "c")] [] ["resize.mc"] "/objects/o1/data" [] none
        ⟨0, some 3, "data"⟩).reqHeaders = some demoConf.executionServer :=
  ⟨(c10_request_mutated_before_protocol demoConf demoStore
      "AUTH_0123456789abcdef" [("Cookie", "c")] [] ["resize.mc"]
      "/objects/o1/data" [] none ⟨0, some 3, "data"⟩ rfl).1,
   (c10_request_mutated_before_protocol demoConf demoStore
      "AUTH_0123456789abcdef" [("Cookie", "c")] [] ["resize.mc"]
      "/objects/o1/data" [] none ⟨0, some 3, "data"⟩ rfl).2.1⟩

end Vertigo
